import Mathlib

/-
Verification of the content projection layer (components/library/src/content/ser.rs):
the translation resolver (TranslatedContent), the page projector (SerializingPage)
and the section projector (SerializingSection).

Shallow embedding conventions:
- slotmap keys (DefaultKey) are modelled as Nat;
- the external Library (library.rs is outside the analysed slice) is modelled from
  the spec's Content Index contract as association lists: fetch-by-key is fallible
  and a missing key is a fatal fault, modelled by the Option monad (none = the
  panic of the Rust unwrap / indexing);
- opaque payload types carried verbatim by the projectors (tera Map, Heading,
  taxonomies) are modelled as simple serializable stand-ins; the projectors only
  copy them;
- the HashSet of a translation group is modelled as the list of keys in stored
  iteration order, as the spec treats group order as opaque but deterministic.
-/

namespace Zola

/-- Slotmap key (DefaultKey in the Rust source). -/
abbrev Key := Nat

/-- File metadata of a page or section: the canonical path (cross-language join key),
the relative path and the source path. -/
structure FileInfo where
  canonical : String
  relative : String
  path : String
deriving DecidableEq, Repr

/-- Front-matter of a page (the fields read by ser.rs). -/
structure PageMeta where
  title : Option String
  description : Option String
  updated : Option String
  date : Option String
  datetime_tuple : Option (Int × Nat × Nat)
  taxonomies : List (String × List String)
  extra : List (String × String)
  draft : Bool
deriving DecidableEq, Repr

/-- A page record of the content graph (fields of content::Page used by ser.rs;
navigation pointers and ancestors hold keys into the Library). -/
structure Page where
  file : FileInfo
  lang : String
  permalink : String
  slug : String
  content : String
  meta : PageMeta
  path : String
  components : List String
  summary : Option String
  toc : List String
  word_count : Option Nat
  reading_time : Option Nat
  serialized_assets : List String
  lighter : Option Key
  heavier : Option Key
  earlier_updated : Option Key
  later_updated : Option Key
  earlier : Option Key
  later : Option Key
  title_prev : Option Key
  title_next : Option Key
  ancestors : List Key
deriving DecidableEq, Repr

/-- Front-matter of a section (the fields read by ser.rs). -/
structure SectionMeta where
  title : Option String
  description : Option String
  extra : List (String × String)
  draft : Bool
deriving DecidableEq, Repr

/-- A section record of the content graph (fields of content::Section used by
ser.rs; pages, subsections, includers and ancestors hold keys into the Library). -/
structure Section where
  file : FileInfo
  lang : String
  permalink : String
  content : String
  meta : SectionMeta
  path : String
  components : List String
  toc : List String
  word_count : Option Nat
  reading_time : Option Nat
  serialized_assets : List String
  pages : List Key
  subsections : List Key
  includers : List Key
  ancestors : List Key
deriving DecidableEq, Repr

/-- Modelled from the spec: the Content Index (library.rs, outside the analysed
slice). Immutable store mapping keys to pages and sections, plus the translation
groups keyed by canonical identity. -/
structure Library where
  pages : List (Key × Page)
  sections : List (Key × Section)
  translations : List (String × List Key)
deriving Repr

/-- Modelled from the spec: get_page(key), a fatal fault if the key is unknown
(modelled as none). -/
def Library.getPageByKey (lib : Library) (k : Key) : Option Page :=
  List.lookup k lib.pages

/-- Modelled from the spec: get_section(key), a fatal fault if the key is unknown
(modelled as none). -/
def Library.getSectionByKey (lib : Library) (k : Key) : Option Section :=
  List.lookup k lib.sections

/-- Modelled from the spec: get_section_path(key) returns the section's relative
path, for lightweight section references. -/
def Library.getSectionPathByKey (lib : Library) (k : Key) : Option String :=
  (lib.getSectionByKey k).map (fun s => s.file.relative)

/-- The translation group stored for a canonical id, or the empty group when the
map has no entry: the source reads library.translations.get(canonical)
.or(Some(HashSet::new())).unwrap(). -/
def Library.translationGroup (lib : Library) (canonical : String) : List Key :=
  (List.lookup canonical lib.translations).getD []

/-- One Translation Reference: language tag, permalink, optional title, source
path (struct TranslatedContent). -/
structure TranslatedContent where
  lang : String
  permalink : String
  title : Option String
  path : String
deriving DecidableEq, Repr

/-- Reduction of a full section record to a Translation Reference (the push in
find_all_sections). -/
def TranslatedContent.ofSection (s : Section) : TranslatedContent :=
  { lang := s.lang, permalink := s.permalink, title := s.meta.title, path := s.file.path }

/-- Reduction of a full page record to a Translation Reference (the push in
find_all_pages). -/
def TranslatedContent.ofPage (p : Page) : TranslatedContent :=
  { lang := p.lang, permalink := p.permalink, title := p.meta.title, path := p.file.path }

/-- The loop body of find_all_sections: fetch every member key of the group and
reduce it; a missing member is a fatal fault. -/
def resolveGroupSections (lib : Library) : List Key → Option (List TranslatedContent)
  | [] => some []
  | k :: ks => do
    let other ← lib.getSectionByKey k
    let rest ← resolveGroupSections lib ks
    pure (TranslatedContent.ofSection other :: rest)

/-- The loop body of find_all_pages: fetch every member key of the group and
reduce it; a missing member is a fatal fault. -/
def resolveGroupPages (lib : Library) : List Key → Option (List TranslatedContent)
  | [] => some []
  | k :: ks => do
    let other ← lib.getPageByKey k
    let rest ← resolveGroupPages lib ks
    pure (TranslatedContent.ofPage other :: rest)

/-- TranslatedContent::find_all_sections: iterate the translation group of the
section's canonical id (empty when absent) and reduce every member. -/
def TranslatedContent.find_all_sections (sec : Section) (library : Library) :
    Option (List TranslatedContent) :=
  resolveGroupSections library (library.translationGroup sec.file.canonical)

/-- TranslatedContent::find_all_pages: iterate the translation group of the
page's canonical id (empty when absent) and reduce every member. -/
def TranslatedContent.find_all_pages (page : Page) (library : Library) :
    Option (List TranslatedContent) :=
  resolveGroupPages library (library.translationGroup page.file.canonical)

/-- The fields of a serialized page view, parametrised by the type sitting in the
eight navigation slots. The recursive Rust struct SerializingPage is the
fixpoint of this record (see SerializingPage below); all field names follow the
source struct. -/
structure PageViewF (α : Type) where
  relative_path : String
  content : String
  permalink : String
  slug : String
  ancestors : List String
  title : Option String
  description : Option String
  updated : Option String
  date : Option String
  year : Option Int
  month : Option Nat
  day : Option Nat
  taxonomies : List (String × List String)
  extra : List (String × String)
  path : String
  components : List String
  summary : Option String
  toc : List String
  word_count : Option Nat
  reading_time : Option Nat
  assets : List String
  draft : Bool
  lang : String
  lighter : Option α
  heavier : Option α
  earlier_updated : Option α
  later_updated : Option α
  earlier : Option α
  later : Option α
  title_prev : Option α
  title_next : Option α
  translations : List TranslatedContent
deriving Repr

/-- struct SerializingPage: a page view whose navigation slots hold boxed page
views (Option Box SerializingPage in the source), encoded as the fixpoint of
PageViewF. -/
inductive SerializingPage : Type where
  | mk (fields : PageViewF SerializingPage) : SerializingPage
deriving Repr

/-- The field record of a page view. -/
def SerializingPage.fields : SerializingPage → PageViewF SerializingPage
  | .mk f => f

def SerializingPage.year (v : SerializingPage) : Option Int := v.fields.year

def SerializingPage.month (v : SerializingPage) : Option Nat := v.fields.month

def SerializingPage.day (v : SerializingPage) : Option Nat := v.fields.day

def SerializingPage.lighter (v : SerializingPage) : Option SerializingPage := v.fields.lighter

def SerializingPage.heavier (v : SerializingPage) : Option SerializingPage := v.fields.heavier

def SerializingPage.earlier_updated (v : SerializingPage) : Option SerializingPage :=
  v.fields.earlier_updated

def SerializingPage.later_updated (v : SerializingPage) : Option SerializingPage :=
  v.fields.later_updated

def SerializingPage.earlier (v : SerializingPage) : Option SerializingPage := v.fields.earlier

def SerializingPage.later (v : SerializingPage) : Option SerializingPage := v.fields.later

def SerializingPage.title_prev (v : SerializingPage) : Option SerializingPage :=
  v.fields.title_prev

def SerializingPage.title_next (v : SerializingPage) : Option SerializingPage :=
  v.fields.title_next

def SerializingPage.translations (v : SerializingPage) : List TranslatedContent :=
  v.fields.translations

def SerializingPage.ancestors (v : SerializingPage) : List String := v.fields.ancestors

/-- The eight navigation slots of a page. -/
inductive NavSlot : Type where
  | lighter
  | heavier
  | earlier_updated
  | later_updated
  | earlier
  | later
  | title_prev
  | title_next
deriving DecidableEq, Repr

/-- The navigation pointer of a page at a given slot. -/
def Page.navPtr (p : Page) : NavSlot → Option Key
  | .lighter => p.lighter
  | .heavier => p.heavier
  | .earlier_updated => p.earlier_updated
  | .later_updated => p.later_updated
  | .earlier => p.earlier
  | .later => p.later
  | .title_prev => p.title_prev
  | .title_next => p.title_next

/-- The navigation field of a page view at a given slot. -/
def SerializingPage.navField (v : SerializingPage) : NavSlot → Option SerializingPage
  | .lighter => v.lighter
  | .heavier => v.heavier
  | .earlier_updated => v.earlier_updated
  | .later_updated => v.later_updated
  | .earlier => v.earlier
  | .later => v.later
  | .title_prev => v.title_prev
  | .title_next => v.title_next

/-- A page view with its eight navigation fields set to absent, all other fields
kept. -/
def SerializingPage.eraseNav : SerializingPage → SerializingPage
  | .mk f => .mk { f with
      lighter := none
      heavier := none
      earlier_updated := none
      later_updated := none
      earlier := none
      later := none
      title_prev := none
      title_next := none }

/-- The year/month/day decomposition of the stored date-time tuple (the if-let
block at the top of from_page and from_page_basic). -/
def dateParts : Option (Int × Nat × Nat) → Option Int × Option Nat × Option Nat
  | some (y, m, d) => (some y, some m, some d)
  | none => (none, none, none)

/-- The ancestors resolution loop shared by the projectors: each ancestor key is
mapped to its section's relative path; a missing key is a fatal fault. -/
def resolveAncestors (lib : Library) : List Key → Option (List String)
  | [] => some []
  | k :: ks => do
    let s ← lib.getSectionByKey k
    let rest ← resolveAncestors lib ks
    pure (s.file.relative :: rest)

/-- The struct literal built by from_page_basic: all scalar fields copied from
the page, date split through dateParts, every navigation field absent. -/
def SerializingPage.basicView (page : Page) (ancestors : List String)
    (translations : List TranslatedContent) : SerializingPage :=
  .mk {
    relative_path := page.file.relative
    ancestors := ancestors
    content := page.content
    permalink := page.permalink
    slug := page.slug
    title := page.meta.title
    description := page.meta.description
    extra := page.meta.extra
    updated := page.meta.updated
    date := page.meta.date
    year := (dateParts page.meta.datetime_tuple).1
    month := (dateParts page.meta.datetime_tuple).2.1
    day := (dateParts page.meta.datetime_tuple).2.2
    taxonomies := page.meta.taxonomies
    path := page.path
    components := page.components
    summary := page.summary
    toc := page.toc
    word_count := page.word_count
    reading_time := page.reading_time
    assets := page.serialized_assets
    draft := page.meta.draft
    lang := page.lang
    lighter := none
    heavier := none
    earlier_updated := none
    later_updated := none
    earlier := none
    later := none
    title_prev := none
    title_next := none
    translations := translations }

/-- The ancestors of from_page_basic: resolved when a library is supplied,
otherwise the empty vec. -/
def basicAncestors (page : Page) : Option Library → Option (List String)
  | some lib => resolveAncestors lib page.ancestors
  | none => some []

/-- The translations of from_page_basic: resolved when a library is supplied,
otherwise the empty vec. -/
def basicTranslations (page : Page) : Option Library → Option (List TranslatedContent)
  | some lib => TranslatedContent.find_all_pages page lib
  | none => some []

/-- SerializingPage::from_page_basic: same as from_page but never fills the
sibling (navigation) fields; ancestors and translations are resolved only when a
library is supplied. -/
def SerializingPage.from_page_basic (page : Page) (library : Option Library) :
    Option SerializingPage := do
  let ancestors ← basicAncestors page library
  let translations ← basicTranslations page library
  pure (SerializingPage.basicView page ancestors translations)

/-- Resolution of one navigation pointer in from_page:
page.ptr.map(k => Box::new(from_page_basic(pages.get(k).unwrap(), Some(library)))).
A missing target key is a fatal fault. -/
def resolveNav (library : Library) : Option Key → Option (Option SerializingPage)
  | none => some none
  | some k => do
    let p ← library.getPageByKey k
    let v ← SerializingPage.from_page_basic p (some library)
    pure (some v)

/-- The struct literal built by from_page: all scalar fields copied from the
page, date split through dateParts, navigation fields as resolved. -/
def SerializingPage.fullView (page : Page) (ancestors : List String)
    (translations : List TranslatedContent)
    (lighter heavier earlier_updated later_updated earlier later title_prev
      title_next : Option SerializingPage) : SerializingPage :=
  .mk {
    relative_path := page.file.relative
    ancestors := ancestors
    content := page.content
    permalink := page.permalink
    slug := page.slug
    title := page.meta.title
    description := page.meta.description
    extra := page.meta.extra
    updated := page.meta.updated
    date := page.meta.date
    year := (dateParts page.meta.datetime_tuple).1
    month := (dateParts page.meta.datetime_tuple).2.1
    day := (dateParts page.meta.datetime_tuple).2.2
    taxonomies := page.meta.taxonomies
    path := page.path
    components := page.components
    summary := page.summary
    toc := page.toc
    word_count := page.word_count
    reading_time := page.reading_time
    assets := page.serialized_assets
    draft := page.meta.draft
    lang := page.lang
    lighter := lighter
    heavier := heavier
    earlier_updated := earlier_updated
    later_updated := later_updated
    earlier := earlier
    later := later
    title_prev := title_prev
    title_next := title_next
    translations := translations }

/-- SerializingPage::from_page: grabs all the data from a page, including sibling
pages resolved at basic fidelity through the library. -/
def SerializingPage.from_page (page : Page) (library : Library) :
    Option SerializingPage := do
  let lighter ← resolveNav library page.lighter
  let heavier ← resolveNav library page.heavier
  let earlier_updated ← resolveNav library page.earlier_updated
  let later_updated ← resolveNav library page.later_updated
  let earlier ← resolveNav library page.earlier
  let later ← resolveNav library page.later
  let title_prev ← resolveNav library page.title_prev
  let title_next ← resolveNav library page.title_next
  let ancestors ← resolveAncestors library page.ancestors
  let translations ← TranslatedContent.find_all_pages page library
  pure (SerializingPage.fullView page ancestors translations lighter heavier
    earlier_updated later_updated earlier later title_prev title_next)

/-- struct SerializingSection: a section view; child pages are basic-fidelity
page views, subsections and includers are path strings. -/
structure SerializingSection where
  relative_path : String
  content : String
  permalink : String
  draft : Bool
  ancestors : List String
  title : Option String
  description : Option String
  extra : List (String × String)
  path : String
  components : List String
  toc : List String
  word_count : Option Nat
  reading_time : Option Nat
  lang : String
  assets : List String
  pages : List SerializingPage
  subsections : List String
  translations : List TranslatedContent
  includers : List String
deriving Repr

/-- Modelled from the spec: Page::to_serialized_basic (page.rs, outside the
analysed slice) produces a basic-fidelity page view with the index passed
through. -/
def Page.to_serialized_basic (p : Page) (library : Library) : Option SerializingPage :=
  SerializingPage.from_page_basic p (some library)

/-- The child-pages loop of from_section: fetch each child page key and serialize
it at basic fidelity; a missing key is a fatal fault. -/
def resolveChildPages (lib : Library) : List Key → Option (List SerializingPage)
  | [] => some []
  | k :: ks => do
    let p ← lib.getPageByKey k
    let v ← p.to_serialized_basic lib
    let rest ← resolveChildPages lib ks
    pure (v :: rest)

/-- The subsections/includers loop of from_section and from_section_basic: each
section key is resolved only to its path string via get_section_path_by_key; a
missing key is a fatal fault. -/
def resolveSectionPaths (lib : Library) : List Key → Option (List String)
  | [] => some []
  | k :: ks => do
    let p ← lib.getSectionPathByKey k
    let rest ← resolveSectionPaths lib ks
    pure (p :: rest)

/-- The struct literal built by from_section: all scalar fields copied from the
section, with the resolved relation lists. -/
def SerializingSection.sectionView (sec : Section) (ancestors : List String)
    (translations : List TranslatedContent) (pages : List SerializingPage)
    (subsections includers : List String) : SerializingSection :=
  { relative_path := sec.file.relative
    ancestors := ancestors
    draft := sec.meta.draft
    content := sec.content
    permalink := sec.permalink
    title := sec.meta.title
    description := sec.meta.description
    extra := sec.meta.extra
    path := sec.path
    components := sec.components
    toc := sec.toc
    word_count := sec.word_count
    reading_time := sec.reading_time
    assets := sec.serialized_assets
    lang := sec.lang
    pages := pages
    subsections := subsections
    translations := translations
    includers := includers }

/-- SerializingSection::from_section: serializes child pages at basic fidelity,
subsections and includers as path strings, and resolves ancestors and
translations. -/
def SerializingSection.from_section (sec : Section) (library : Library) :
    Option SerializingSection := do
  let pages ← resolveChildPages library sec.pages
  let subsections ← resolveSectionPaths library sec.subsections
  let includers ← resolveSectionPaths library sec.includers
  let ancestors ← resolveAncestors library sec.ancestors
  let translations ← TranslatedContent.find_all_sections sec library
  pure (SerializingSection.sectionView sec ancestors translations pages subsections includers)

/-- The ancestors of from_section_basic: resolved when a library is supplied,
otherwise the empty vec. -/
def basicSectionAncestors (sec : Section) : Option Library → Option (List String)
  | some lib => resolveAncestors lib sec.ancestors
  | none => some []

/-- The translations of from_section_basic: resolved when a library is supplied,
otherwise the empty vec. -/
def basicSectionTranslations (sec : Section) : Option Library → Option (List TranslatedContent)
  | some lib => TranslatedContent.find_all_sections sec lib
  | none => some []

/-- The subsections of from_section_basic: resolved to path strings when a
library is supplied, otherwise the empty vec. -/
def basicSubsections (sec : Section) : Option Library → Option (List String)
  | some lib => resolveSectionPaths lib sec.subsections
  | none => some []

/-- The includers of from_section_basic: resolved to path strings when a library
is supplied, otherwise the empty vec. -/
def basicIncluders (sec : Section) : Option Library → Option (List String)
  | some lib => resolveSectionPaths lib sec.includers
  | none => some []

/-- SerializingSection::from_section_basic: same as from_section but never
fetches child pages; ancestors, translations, subsections and includers are
resolved only when a library is supplied. -/
def SerializingSection.from_section_basic (sec : Section) (library : Option Library) :
    Option SerializingSection := do
  let ancestors ← basicSectionAncestors sec library
  let translations ← basicSectionTranslations sec library
  let subsections ← basicSubsections sec library
  let includers ← basicIncluders sec library
  pure (SerializingSection.sectionView sec ancestors translations [] subsections includers)

/-- Test fixture: empty page front-matter. -/
def emptyPageMeta : PageMeta :=
  { title := none, description := none, updated := none, date := none,
    datetime_tuple := none, taxonomies := [], extra := [], draft := false }

/-- Test fixture: a minimal page record with the given file identity. -/
def mkTestPage (canonical relative lang : String) : Page :=
  { file := { canonical := canonical, relative := relative, path := relative }
    lang := lang
    permalink := "https://example.org/" ++ relative
    slug := "post"
    content := "body"
    meta := emptyPageMeta
    path := "/" ++ relative
    components := []
    summary := none
    toc := []
    word_count := some 2
    reading_time := some 1
    serialized_assets := []
    lighter := none
    heavier := none
    earlier_updated := none
    later_updated := none
    earlier := none
    later := none
    title_prev := none
    title_next := none
    ancestors := [] }

/-- Test fixture: empty section front-matter. -/
def emptySectionMeta : SectionMeta :=
  { title := none, description := none, extra := [], draft := false }

/-- Test fixture: a minimal section record with the given file identity. -/
def mkTestSection (canonical relative lang : String) : Section :=
  { file := { canonical := canonical, relative := relative, path := relative }
    lang := lang
    permalink := "https://example.org/" ++ relative
    content := "section body"
    meta := emptySectionMeta
    path := "/" ++ relative
    components := []
    toc := []
    word_count := some 2
    reading_time := some 1
    serialized_assets := []
    pages := []
    subsections := []
    includers := []
    ancestors := [] }

/-- Test fixture: the english page of a two-language translation group. -/
def pageEn : Page := mkTestPage "c/post" "en/post.md" "en"

/-- Test fixture: the french page of a two-language translation group. -/
def pageFr : Page := mkTestPage "c/post" "fr/post.md" "fr"

/-- Test fixture: a library holding pageEn and pageFr with a shared translation
group of size two. -/
def lib1 : Library :=
  { pages := [(1, pageEn), (2, pageFr)]
    sections := []
    translations := [("c/post", [1, 2])] }

/-- Test fixture: a library holding only pageEn, with no translation group at
all. -/
def lib0 : Library :=
  { pages := [(1, pageEn)]
    sections := []
    translations := [] }

/-- Test fixture: a section that is included by secB (cyclic includer pair). -/
def secA : Section :=
  { mkTestSection "s/a" "a/_index.md" "en" with includers := [11] }

/-- Test fixture: a section that is included by secA (cyclic includer pair). -/
def secB : Section :=
  { mkTestSection "s/b" "b/_index.md" "en" with includers := [10] }

/-- Test fixture: a library with the mutually-including sections secA and secB. -/
def libSec : Library :=
  { pages := []
    sections := [(10, secA), (11, secB)]
    translations := [] }

/-- Generic shape of the resolution loops: resolve every element, fatally
failing as soon as one element fails (proof infrastructure for the loop
characterizations below). -/
def mapOption {α β : Type} (g : α → Option β) : List α → Option (List β)
  | [] => some []
  | a :: as => do
    let b ← g a
    let rest ← mapOption g as
    pure (b :: rest)

/-- Every key stored in a page record itself resolves: its ancestor keys are
known sections and its translation-group members are known pages. -/
def pageOwnKeysOk (lib : Library) (p : Page) : Prop :=
  (∀ k ∈ p.ancestors, ∃ s, lib.getSectionByKey k = some s) ∧
  (∀ k ∈ lib.translationGroup p.file.canonical, ∃ q, lib.getPageByKey k = some q)

/-- One navigation pointer fully resolves: absent, or its target is a known page
whose own stored keys all resolve (the target is serialized at basic fidelity,
which dereferences the target's ancestors and translation group). -/
def navTargetOk (lib : Library) : Option Key → Prop
  | none => True
  | some k => ∃ q, lib.getPageByKey k = some q ∧ pageOwnKeysOk lib q

/-- All eight navigation pointers of a page fully resolve. -/
def navTargetsOk (lib : Library) (p : Page) : Prop :=
  navTargetOk lib p.lighter ∧ navTargetOk lib p.heavier ∧
  navTargetOk lib p.earlier_updated ∧ navTargetOk lib p.later_updated ∧
  navTargetOk lib p.earlier ∧ navTargetOk lib p.later ∧
  navTargetOk lib p.title_prev ∧ navTargetOk lib p.title_next

/-- Every key dereferenced when projecting a section resolves: child pages are
known pages whose own stored keys resolve (they are serialized at basic
fidelity), subsections and includers are known sections, ancestor keys are known
sections, and translation-group members are known sections. -/
def sectionOwnKeysOk (lib : Library) (s : Section) : Prop :=
  (∀ k ∈ s.pages, ∃ q, lib.getPageByKey k = some q ∧ pageOwnKeysOk lib q) ∧
  (∀ k ∈ s.subsections, ∃ r, lib.getSectionPathByKey k = some r) ∧
  (∀ k ∈ s.includers, ∃ r, lib.getSectionPathByKey k = some r) ∧
  (∀ k ∈ s.ancestors, ∃ t, lib.getSectionByKey k = some t) ∧
  (∀ k ∈ lib.translationGroup s.file.canonical, ∃ t, lib.getSectionByKey k = some t)

/-- Test fixture: a page whose lighter pointer targets key 2. -/
def pageNav : Page := { mkTestPage "c/nav" "en/nav.md" "en" with lighter := some 2 }

/-- Test fixture: a library where pageNav's lighter pointer resolves to pageFr
and no translation groups are stored. -/
def lib2 : Library :=
  { pages := [(1, pageNav), (2, pageFr)]
    sections := []
    translations := [] }

/-- Test fixture: the full-fidelity view of pageNav in lib2, with pageFr's basic
view in the lighter slot. -/
def navViewEx : SerializingPage :=
  SerializingPage.fullView pageNav [] []
    (some (SerializingPage.basicView pageFr [] [])) none none none none none none none

/-- Test fixture: the basic view of pageFr in lib1 (its translation group holds
pageEn and pageFr). -/
def basicFrEx : SerializingPage :=
  SerializingPage.basicView pageFr []
    [TranslatedContent.ofPage pageEn, TranslatedContent.ofPage pageFr]

/-- Test fixture: a page whose stored ancestor key 99 is absent from the
library. -/
def pageTargetBroken : Page :=
  { mkTestPage "c/target" "en/target.md" "en" with ancestors := [99] }

/-- Test fixture: a page whose lighter pointer targets key 2 (present), used to
show that full projection can still fail through the target's own broken keys. -/
def pageNavBroken : Page :=
  { mkTestPage "c/navbroken" "en/navbroken.md" "en" with lighter := some 2 }

/-- Test fixture: a library where every key stored in pageNavBroken resolves,
but the navigation target pageTargetBroken has a dangling ancestor key. -/
def libBroken : Library :=
  { pages := [(1, pageNavBroken), (2, pageTargetBroken)]
    sections := []
    translations := [] }

/-- Test fixture: a page dated (2024, 3, 15). -/
def pageDated : Page :=
  { mkTestPage "c/dated" "en/dated.md" "en" with
      meta := { emptyPageMeta with datetime_tuple := some (2024, 3, 15) } }

/-- Test fixture: a library holding only pageDated. -/
def libDated : Library :=
  { pages := [(1, pageDated)]
    sections := []
    translations := [] }

/-- Test fixture: the section view of secA in libSec: its includer secB appears
only as a path string. -/
def secViewA : SerializingSection :=
  { relative_path := secA.file.relative
    ancestors := []
    draft := false
    content := secA.content
    permalink := secA.permalink
    title := none
    description := none
    extra := []
    path := secA.path
    components := []
    toc := []
    word_count := some 2
    reading_time := some 1
    assets := []
    lang := "en"
    pages := []
    subsections := []
    translations := []
    includers := ["b/_index.md"] }

/- Helper lemmas about the resolution loops. -/

/-- Two page views with equal field records are equal. -/
theorem SerializingPage.fields_injective {v w : SerializingPage}
    (h : v.fields = w.fields) : v = w := by
  cases v; cases w; cases h; rfl

/-- The page-group resolution loop returns one Translation Reference per member
key, in stored order: each reference is the reduction of the page fetched for
the corresponding key. -/
theorem resolveGroupPages_forall2 {lib : Library} :
    ∀ {ks : List Key} {ts : List TranslatedContent},
      resolveGroupPages lib ks = some ts →
      List.Forall₂
        (fun k t => ∃ q, lib.getPageByKey k = some q ∧ t = TranslatedContent.ofPage q)
        ks ts := by
  intro ks
  induction ks with
  | nil =>
    intro ts h
    simp only [resolveGroupPages, Option.some.injEq] at h
    subst h
    exact List.Forall₂.nil
  | cons k ks ih =>
    intro ts h
    simp only [resolveGroupPages, Option.pure_def, Option.bind_eq_bind, Option.bind_eq_some,
      Option.some.injEq] at h
    obtain ⟨q, hq, rest, hrest, hts⟩ := h
    subst hts
    exact List.Forall₂.cons ⟨q, hq, rfl⟩ (ih hrest)

/-- The section-group resolution loop returns one Translation Reference per
member key, in stored order: each reference is the reduction of the section
fetched for the corresponding key. -/
theorem resolveGroupSections_forall2 {lib : Library} :
    ∀ {ks : List Key} {ts : List TranslatedContent},
      resolveGroupSections lib ks = some ts →
      List.Forall₂
        (fun k t => ∃ q, lib.getSectionByKey k = some q ∧ t = TranslatedContent.ofSection q)
        ks ts := by
  intro ks
  induction ks with
  | nil =>
    intro ts h
    simp only [resolveGroupSections, Option.some.injEq] at h
    subst h
    exact List.Forall₂.nil
  | cons k ks ih =>
    intro ts h
    simp only [resolveGroupSections, Option.pure_def, Option.bind_eq_bind, Option.bind_eq_some,
      Option.some.injEq] at h
    obtain ⟨q, hq, rest, hrest, hts⟩ := h
    subst hts
    exact List.Forall₂.cons ⟨q, hq, rfl⟩ (ih hrest)

/- Claim theorems. -/

/-- C1 (counterexample): for pageEn, whose canonical id has a translation group
of size N = 2 in lib1 (the group holding pageEn itself and pageFr), the
translation resolver returns 2 references, not N - 1 = 1, and the first returned
reference's path equals pageEn's own path: the entity is not excluded from its
own translation list. -/
theorem C1_counterexample :
    TranslatedContent.find_all_pages pageEn lib1 =
      some [TranslatedContent.ofPage pageEn, TranslatedContent.ofPage pageFr] ∧
    (lib1.translationGroup pageEn.file.canonical).length = 2 ∧
    (TranslatedContent.ofPage pageEn).path = pageEn.file.path := by
  refine ⟨rfl, rfl, rfl⟩

/-- C1 (amended): for every entity (page or section) whose canonical id has a
translation group of size N in the library, the translation resolver
(find_all_pages / find_all_sections) returns exactly N Translation References,
one per group member in stored order, each the reduction of the member fetched
for the corresponding key; the entity itself is not excluded, so its own
reference is included whenever its key belongs to the group. -/
theorem C1_translation_resolution_amended :
    (∀ (p : Page) (lib : Library) (ts : List TranslatedContent),
      TranslatedContent.find_all_pages p lib = some ts →
      ts.length = (lib.translationGroup p.file.canonical).length ∧
      List.Forall₂
        (fun k t => ∃ q, lib.getPageByKey k = some q ∧ t = TranslatedContent.ofPage q)
        (lib.translationGroup p.file.canonical) ts) ∧
    (∀ (s : Section) (lib : Library) (ts : List TranslatedContent),
      TranslatedContent.find_all_sections s lib = some ts →
      ts.length = (lib.translationGroup s.file.canonical).length ∧
      List.Forall₂
        (fun k t => ∃ q, lib.getSectionByKey k = some q ∧ t = TranslatedContent.ofSection q)
        (lib.translationGroup s.file.canonical) ts) := by
  constructor
  · intro p lib ts h
    have hf := resolveGroupPages_forall2 h
    exact ⟨hf.length_eq.symm, hf⟩
  · intro s lib ts h
    have hf := resolveGroupSections_forall2 h
    exact ⟨hf.length_eq.symm, hf⟩

/-- C1 (witness for the amended theorem): evaluated on pageEn in lib1, the
resolver returns a list of length 2 matching the stored group member-for-member. -/
theorem C1_translation_resolution_amended_witness :
    ([TranslatedContent.ofPage pageEn, TranslatedContent.ofPage pageFr] :
        List TranslatedContent).length =
      (lib1.translationGroup pageEn.file.canonical).length ∧
    List.Forall₂
      (fun k t => ∃ q, lib1.getPageByKey k = some q ∧ t = TranslatedContent.ofPage q)
      (lib1.translationGroup pageEn.file.canonical)
      [TranslatedContent.ofPage pageEn, TranslatedContent.ofPage pageFr] :=
  C1_translation_resolution_amended.1 pageEn lib1
    [TranslatedContent.ofPage pageEn, TranslatedContent.ofPage pageFr] rfl

/-- C6: for every entity whose canonical id has no translation group stored in
the library, the translation resolver returns the empty sequence wrapped in
success: absence of a group is never a fault. -/
theorem C6_missing_group_empty :
    ∀ (p : Page) (s : Section) (lib : Library),
      List.lookup p.file.canonical lib.translations = none →
      List.lookup s.file.canonical lib.translations = none →
      TranslatedContent.find_all_pages p lib = some [] ∧
      TranslatedContent.find_all_sections s lib = some [] := by
  intro p s lib hp hs
  constructor
  · simp [TranslatedContent.find_all_pages, Library.translationGroup, hp, resolveGroupPages]
  · simp [TranslatedContent.find_all_sections, Library.translationGroup, hs, resolveGroupSections]

/-- C6 (witness): pageEn and secA have no translation group in lib0, and both
resolvers return the empty list successfully. -/
theorem C6_missing_group_empty_witness :
    TranslatedContent.find_all_pages pageEn lib0 = some [] ∧
    TranslatedContent.find_all_sections secA lib0 = some [] :=
  C6_missing_group_empty pageEn secA lib0 rfl rfl

/- Characterizations of the generic resolution loop. -/

/-- mapOption succeeds with bs exactly when the step succeeds pointwise along
the input, producing bs in order. -/
theorem mapOption_forall2 {α β : Type} {g : α → Option β} :
    ∀ {as : List α} {bs : List β},
      mapOption g as = some bs ↔ List.Forall₂ (fun a b => g a = some b) as bs := by
  intro as
  induction as with
  | nil =>
    intro bs
    constructor
    · intro h
      simp only [mapOption, Option.some.injEq] at h
      subst h
      exact List.Forall₂.nil
    · intro h
      cases h
      rfl
  | cons a as ih =>
    intro bs
    constructor
    · intro h
      simp only [mapOption, Option.pure_def, Option.bind_eq_bind, Option.bind_eq_some,
        Option.some.injEq] at h
      obtain ⟨b, hb, rest, hrest, hbs⟩ := h
      subst hbs
      exact List.Forall₂.cons hb (ih.mp hrest)
    · intro h
      cases h with
      | cons hb hrest =>
        simp only [mapOption, Option.pure_def, Option.bind_eq_bind, Option.bind_eq_some,
          Option.some.injEq]
        exact ⟨_, hb, _, ih.mpr hrest, rfl⟩

/-- mapOption succeeds exactly when the step succeeds on every element. -/
theorem mapOption_exists_iff {α β : Type} {g : α → Option β} :
    ∀ {as : List α}, (∃ bs, mapOption g as = some bs) ↔ ∀ a ∈ as, ∃ b, g a = some b := by
  intro as
  induction as with
  | nil => simp [mapOption]
  | cons a as ih =>
    constructor
    · rintro ⟨bs, hbs⟩
      simp only [mapOption, Option.pure_def, Option.bind_eq_bind, Option.bind_eq_some,
        Option.some.injEq] at hbs
      obtain ⟨b, hb, rest, hrest, _⟩ := hbs
      intro x hx
      rcases List.mem_cons.mp hx with rfl | hx
      · exact ⟨b, hb⟩
      · exact ih.mp ⟨rest, hrest⟩ x hx
    · intro hall
      obtain ⟨b, hb⟩ := hall a (List.mem_cons_self a as)
      obtain ⟨rest, hrest⟩ := ih.mpr (fun x hx => hall x (List.mem_cons_of_mem a hx))
      refine ⟨b :: rest, ?_⟩
      simp only [mapOption, Option.pure_def, Option.bind_eq_bind, Option.bind_eq_some,
        Option.some.injEq]
      exact ⟨b, hb, rest, hrest, rfl⟩

/-- The ancestors loop is the generic loop over get_section + relative path. -/
theorem resolveAncestors_eq_mapOption (lib : Library) :
    ∀ ks, resolveAncestors lib ks =
      mapOption (fun k => (lib.getSectionByKey k).map (fun s => s.file.relative)) ks := by
  intro ks
  induction ks with
  | nil => rfl
  | cons k ks ih =>
    simp only [resolveAncestors, mapOption]
    cases lib.getSectionByKey k <;> simp [ih]

/-- The subsections/includers loop is the generic loop over
get_section_path_by_key. -/
theorem resolveSectionPaths_eq_mapOption (lib : Library) :
    ∀ ks, resolveSectionPaths lib ks = mapOption (fun k => lib.getSectionPathByKey k) ks := by
  intro ks
  induction ks with
  | nil => rfl
  | cons k ks ih =>
    simp only [resolveSectionPaths, mapOption]
    cases lib.getSectionPathByKey k <;> simp [ih]

/-- The page-group loop is the generic loop over get_page + reduction. -/
theorem resolveGroupPages_eq_mapOption (lib : Library) :
    ∀ ks, resolveGroupPages lib ks =
      mapOption (fun k => (lib.getPageByKey k).map TranslatedContent.ofPage) ks := by
  intro ks
  induction ks with
  | nil => rfl
  | cons k ks ih =>
    simp only [resolveGroupPages, mapOption]
    cases lib.getPageByKey k <;> simp [ih]

/-- The section-group loop is the generic loop over get_section + reduction. -/
theorem resolveGroupSections_eq_mapOption (lib : Library) :
    ∀ ks, resolveGroupSections lib ks =
      mapOption (fun k => (lib.getSectionByKey k).map TranslatedContent.ofSection) ks := by
  intro ks
  induction ks with
  | nil => rfl
  | cons k ks ih =>
    simp only [resolveGroupSections, mapOption]
    cases lib.getSectionByKey k <;> simp [ih]

/-- The child-pages loop is the generic loop over get_page + basic
serialization. -/
theorem resolveChildPages_eq_mapOption (lib : Library) :
    ∀ ks, resolveChildPages lib ks =
      mapOption (fun k => do
        let p ← lib.getPageByKey k
        p.to_serialized_basic lib) ks := by
  intro ks
  induction ks with
  | nil => rfl
  | cons k ks ih =>
    simp only [resolveChildPages, mapOption]
    cases lib.getPageByKey k with
    | none => rfl
    | some p =>
      simp only [Option.pure_def, Option.bind_eq_bind, Option.some_bind']
      cases p.to_serialized_basic lib <;> simp [ih]

/- Decomposition of the page projectors. -/

/-- from_page_basic succeeds exactly by resolving ancestors and translations and
building the basic struct literal. -/
theorem from_page_basic_eq_some_iff {p : Page} {olib : Option Library} {v : SerializingPage} :
    SerializingPage.from_page_basic p olib = some v ↔
    ∃ an tr, basicAncestors p olib = some an ∧ basicTranslations p olib = some tr ∧
      v = SerializingPage.basicView p an tr := by
  simp only [SerializingPage.from_page_basic, Option.pure_def, Option.bind_eq_bind,
    Option.bind_eq_some, Option.some.injEq]
  constructor
  · rintro ⟨an, han, tr, htr, hv⟩
    exact ⟨an, tr, han, htr, hv.symm⟩
  · rintro ⟨an, tr, han, htr, hv⟩
    exact ⟨an, han, tr, htr, hv.symm⟩

/-- The basic struct literal has every navigation field absent. -/
theorem basicView_navField_none (p : Page) (an : List String) (tr : List TranslatedContent)
    (s : NavSlot) : (SerializingPage.basicView p an tr).navField s = none := by
  cases s <;> rfl

/-- Any view produced by from_page_basic has every navigation field absent. -/
theorem from_page_basic_navField_none {p : Page} {olib : Option Library} {w : SerializingPage}
    (h : SerializingPage.from_page_basic p olib = some w) :
    ∀ s : NavSlot, w.navField s = none := by
  obtain ⟨an, tr, _, _, rfl⟩ := from_page_basic_eq_some_iff.mp h
  exact basicView_navField_none p an tr

/-- from_page succeeds exactly by resolving the eight navigation pointers, the
ancestors and the translations, and building the full struct literal. -/
theorem from_page_eq_some_iff {p : Page} {lib : Library} {v : SerializingPage} :
    SerializingPage.from_page p lib = some v ↔
    ∃ l hvy eu lu er lt tp tn an tr,
      resolveNav lib p.lighter = some l ∧
      resolveNav lib p.heavier = some hvy ∧
      resolveNav lib p.earlier_updated = some eu ∧
      resolveNav lib p.later_updated = some lu ∧
      resolveNav lib p.earlier = some er ∧
      resolveNav lib p.later = some lt ∧
      resolveNav lib p.title_prev = some tp ∧
      resolveNav lib p.title_next = some tn ∧
      resolveAncestors lib p.ancestors = some an ∧
      TranslatedContent.find_all_pages p lib = some tr ∧
      v = SerializingPage.fullView p an tr l hvy eu lu er lt tp tn := by
  simp only [SerializingPage.from_page, Option.pure_def, Option.bind_eq_bind,
    Option.bind_eq_some, Option.some.injEq]
  constructor
  · rintro ⟨l, h1, hvy, h2, eu, h3, lu, h4, er, h5, lt, h6, tp, h7, tn, h8, an, h9, tr, h10, hmk⟩
    exact ⟨l, hvy, eu, lu, er, lt, tp, tn, an, tr, h1, h2, h3, h4, h5, h6, h7, h8, h9, h10,
      hmk.symm⟩
  · rintro ⟨l, hvy, eu, lu, er, lt, tp, tn, an, tr, h1, h2, h3, h4, h5, h6, h7, h8, h9, h10, hmk⟩
    exact ⟨l, h1, hvy, h2, eu, h3, lu, h4, er, h5, lt, h6, tp, h7, tn, h8, an, h9, tr, h10,
      hmk.symm⟩

/-- Resolving a present navigation pointer succeeds exactly by fetching the
target page and serializing it at basic fidelity. -/
theorem resolveNav_some_eq_some {lib : Library} {k : Key} {o : Option SerializingPage}
    (h : resolveNav lib (some k) = some o) :
    ∃ q w, lib.getPageByKey k = some q ∧
      SerializingPage.from_page_basic q (some lib) = some w ∧ o = some w := by
  simp only [resolveNav, Option.pure_def, Option.bind_eq_bind, Option.bind_eq_some,
    Option.some.injEq] at h
  obtain ⟨q, hq, w, hw, ho⟩ := h
  exact ⟨q, w, hq, hw, ho.symm⟩

/-- Erasing the navigation fields of a full struct literal yields the basic
struct literal over the same page, ancestors and translations. -/
theorem eraseNav_fullView (p : Page) (an : List String) (tr : List TranslatedContent)
    (l hvy eu lu er lt tp tn : Option SerializingPage) :
    (SerializingPage.fullView p an tr l hvy eu lu er lt tp tn).eraseNav =
      SerializingPage.basicView p an tr := rfl

/-- C2: for every page P with a navigation pointer at slot s set to key K, the
view produced by from_page holds in that slot exactly the view produced by
from_page_basic on the fetched target with the library supplied, and that nested
view's own navigation fields are all absent (nesting depth exactly one). -/
theorem C2_nav_slot_nested_basic :
    ∀ (p : Page) (lib : Library) (v : SerializingPage) (s : NavSlot) (k : Key),
      SerializingPage.from_page p lib = some v →
      p.navPtr s = some k →
      ∃ q w, lib.getPageByKey k = some q ∧
        SerializingPage.from_page_basic q (some lib) = some w ∧
        v.navField s = some w ∧
        ∀ s2 : NavSlot, w.navField s2 = none := by
  intro p lib v s k hv hk
  obtain ⟨l, hvy, eu, lu, er, lt, tp, tn, an, tr, h1, h2, h3, h4, h5, h6, h7, h8, h9, h10, rfl⟩ :=
    from_page_eq_some_iff.mp hv
  cases s with
  | lighter =>
    simp only [Page.navPtr] at hk
    rw [hk] at h1
    obtain ⟨q, w, hq, hw, rfl⟩ := resolveNav_some_eq_some h1
    exact ⟨q, w, hq, hw, rfl, from_page_basic_navField_none hw⟩
  | heavier =>
    simp only [Page.navPtr] at hk
    rw [hk] at h2
    obtain ⟨q, w, hq, hw, rfl⟩ := resolveNav_some_eq_some h2
    exact ⟨q, w, hq, hw, rfl, from_page_basic_navField_none hw⟩
  | earlier_updated =>
    simp only [Page.navPtr] at hk
    rw [hk] at h3
    obtain ⟨q, w, hq, hw, rfl⟩ := resolveNav_some_eq_some h3
    exact ⟨q, w, hq, hw, rfl, from_page_basic_navField_none hw⟩
  | later_updated =>
    simp only [Page.navPtr] at hk
    rw [hk] at h4
    obtain ⟨q, w, hq, hw, rfl⟩ := resolveNav_some_eq_some h4
    exact ⟨q, w, hq, hw, rfl, from_page_basic_navField_none hw⟩
  | earlier =>
    simp only [Page.navPtr] at hk
    rw [hk] at h5
    obtain ⟨q, w, hq, hw, rfl⟩ := resolveNav_some_eq_some h5
    exact ⟨q, w, hq, hw, rfl, from_page_basic_navField_none hw⟩
  | later =>
    simp only [Page.navPtr] at hk
    rw [hk] at h6
    obtain ⟨q, w, hq, hw, rfl⟩ := resolveNav_some_eq_some h6
    exact ⟨q, w, hq, hw, rfl, from_page_basic_navField_none hw⟩
  | title_prev =>
    simp only [Page.navPtr] at hk
    rw [hk] at h7
    obtain ⟨q, w, hq, hw, rfl⟩ := resolveNav_some_eq_some h7
    exact ⟨q, w, hq, hw, rfl, from_page_basic_navField_none hw⟩
  | title_next =>
    simp only [Page.navPtr] at hk
    rw [hk] at h8
    obtain ⟨q, w, hq, hw, rfl⟩ := resolveNav_some_eq_some h8
    exact ⟨q, w, hq, hw, rfl, from_page_basic_navField_none hw⟩

/-- C2 (witness): pageNav's lighter pointer targets key 2 in lib2, and the full
view navViewEx holds pageFr's basic view in its lighter slot. -/
theorem C2_nav_slot_nested_basic_witness :
    ∃ q w, lib2.getPageByKey 2 = some q ∧
      SerializingPage.from_page_basic q (some lib2) = some w ∧
      navViewEx.navField NavSlot.lighter = some w ∧
      ∀ s2 : NavSlot, w.navField s2 = none :=
  C2_nav_slot_nested_basic pageNav lib2 navViewEx NavSlot.lighter 2 rfl rfl

/-- C3: for every page with all eight navigation pointers unset, from_page
produces exactly from_page_basic with the library supplied, and any view it
produces has all navigation fields absent. -/
theorem C3_no_nav_full_eq_basic :
    ∀ (p : Page) (lib : Library),
      p.lighter = none → p.heavier = none → p.earlier_updated = none →
      p.later_updated = none → p.earlier = none → p.later = none →
      p.title_prev = none → p.title_next = none →
      SerializingPage.from_page p lib = SerializingPage.from_page_basic p (some lib) ∧
      ∀ v, SerializingPage.from_page p lib = some v → ∀ s : NavSlot, v.navField s = none := by
  intro p lib h1 h2 h3 h4 h5 h6 h7 h8
  have heq : SerializingPage.from_page p lib = SerializingPage.from_page_basic p (some lib) := by
    unfold SerializingPage.from_page SerializingPage.from_page_basic
    rw [h1, h2, h3, h4, h5, h6, h7, h8]
    rfl
  refine ⟨heq, ?_⟩
  intro v hsome s
  rw [heq] at hsome
  exact from_page_basic_navField_none hsome s

/-- C3 (witness): pageEn has no navigation pointers, and in lib0 the full and
basic projections agree. -/
theorem C3_no_nav_full_eq_basic_witness :
    SerializingPage.from_page pageEn lib0 = SerializingPage.from_page_basic pageEn (some lib0) ∧
    ∀ v, SerializingPage.from_page pageEn lib0 = some v → ∀ s : NavSlot, v.navField s = none :=
  C3_no_nav_full_eq_basic pageEn lib0 rfl rfl rfl rfl rfl rfl rfl rfl

/-- C4: every view produced by from_page_basic, with or without a library, has
all eight navigation fields absent, regardless of the page's pointers. -/
theorem C4_basic_nav_absent :
    ∀ (p : Page) (olib : Option Library) (v : SerializingPage),
      SerializingPage.from_page_basic p olib = some v →
      v.lighter = none ∧ v.heavier = none ∧ v.earlier_updated = none ∧
      v.later_updated = none ∧ v.earlier = none ∧ v.later = none ∧
      v.title_prev = none ∧ v.title_next = none := by
  intro p olib v h
  obtain ⟨an, tr, _, _, rfl⟩ := from_page_basic_eq_some_iff.mp h
  exact ⟨rfl, rfl, rfl, rfl, rfl, rfl, rfl, rfl⟩

/-- C4 (witness): the basic view of pageFr in lib1 has all navigation fields
absent. -/
theorem C4_basic_nav_absent_witness :
    basicFrEx.lighter = none ∧ basicFrEx.heavier = none ∧
    basicFrEx.earlier_updated = none ∧ basicFrEx.later_updated = none ∧
    basicFrEx.earlier = none ∧ basicFrEx.later = none ∧
    basicFrEx.title_prev = none ∧ basicFrEx.title_next = none :=
  C4_basic_nav_absent pageFr (some lib1) basicFrEx rfl

/-- C9: the basic projection with a library supplied is exactly the full
projection with the eight navigation fields erased, on every page including
those with navigation pointers set. -/
theorem C9_basic_is_full_erase_nav :
    ∀ (p : Page) (lib : Library) (vf vb : SerializingPage),
      SerializingPage.from_page p lib = some vf →
      SerializingPage.from_page_basic p (some lib) = some vb →
      vb = vf.eraseNav := by
  intro p lib vf vb hf hb
  obtain ⟨l, hvy, eu, lu, er, lt, tp, tn, an, tr, _, _, _, _, _, _, _, _, h9, h10, rfl⟩ :=
    from_page_eq_some_iff.mp hf
  obtain ⟨an2, tr2, ha2, ht2, rfl⟩ := from_page_basic_eq_some_iff.mp hb
  have hba : basicAncestors p (some lib) = resolveAncestors lib p.ancestors := rfl
  have hbt : basicTranslations p (some lib) = TranslatedContent.find_all_pages p lib := rfl
  rw [hba, h9] at ha2
  rw [hbt, h10] at ht2
  rw [Option.some.inj ha2, Option.some.inj ht2]
  exact (eraseNav_fullView p an2 tr2 l hvy eu lu er lt tp tn).symm

/-- C9 (witness): pageNav has a lighter pointer, and its basic view in lib2 is
its full view navViewEx with the navigation fields erased. -/
theorem C9_basic_is_full_erase_nav_witness :
    SerializingPage.basicView pageNav [] [] = navViewEx.eraseNav :=
  C9_basic_is_full_erase_nav pageNav lib2 navViewEx (SerializingPage.basicView pageNav [] [])
    rfl rfl

/-- C8: both projectors decompose a stored date-time tuple (y, m, d) into
year = y, month = m, day = d, and leave all three absent when no tuple is
stored. -/
theorem C8_date_decomposition :
    ∀ (p : Page) (lib : Library) (olib : Option Library) (vf vb : SerializingPage),
      SerializingPage.from_page p lib = some vf →
      SerializingPage.from_page_basic p olib = some vb →
      (∀ (y : Int) (m d : Nat), p.meta.datetime_tuple = some (y, m, d) →
        vf.year = some y ∧ vf.month = some m ∧ vf.day = some d ∧
        vb.year = some y ∧ vb.month = some m ∧ vb.day = some d) ∧
      (p.meta.datetime_tuple = none →
        vf.year = none ∧ vf.month = none ∧ vf.day = none ∧
        vb.year = none ∧ vb.month = none ∧ vb.day = none) := by
  intro p lib olib vf vb hf hb
  obtain ⟨l, hvy, eu, lu, er, lt, tp, tn, an, tr, _, _, _, _, _, _, _, _, _, _, rfl⟩ :=
    from_page_eq_some_iff.mp hf
  obtain ⟨an2, tr2, _, _, rfl⟩ := from_page_basic_eq_some_iff.mp hb
  constructor
  · intro y m d hd
    refine ⟨?_, ?_, ?_, ?_, ?_, ?_⟩ <;>
      simp [SerializingPage.year, SerializingPage.month, SerializingPage.day,
        SerializingPage.fields, SerializingPage.fullView, SerializingPage.basicView, hd, dateParts]
  · intro hd
    refine ⟨?_, ?_, ?_, ?_, ?_, ?_⟩ <;>
      simp [SerializingPage.year, SerializingPage.month, SerializingPage.day,
        SerializingPage.fields, SerializingPage.fullView, SerializingPage.basicView, hd, dateParts]

/-- C8 (witness): pageDated stores (2024, 3, 15) and both of its views carry
year 2024, month 3, day 15. -/
theorem C8_date_decomposition_witness :
    (SerializingPage.fullView pageDated [] [] none none none none none none none none).year =
        some 2024 ∧
    (SerializingPage.fullView pageDated [] [] none none none none none none none none).month =
        some 3 ∧
    (SerializingPage.fullView pageDated [] [] none none none none none none none none).day =
        some 15 ∧
    (SerializingPage.basicView pageDated [] []).year = some 2024 ∧
    (SerializingPage.basicView pageDated [] []).month = some 3 ∧
    (SerializingPage.basicView pageDated [] []).day = some 15 :=
  (C8_date_decomposition pageDated libDated none
      (SerializingPage.fullView pageDated [] [] none none none none none none none none)
      (SerializingPage.basicView pageDated [] []) rfl rfl).1 2024 3 15 rfl

/-- from_section populates each view field from the corresponding resolution
loop. -/
theorem from_section_fields {s : Section} {lib : Library} {v : SerializingSection}
    (h : SerializingSection.from_section s lib = some v) :
    resolveChildPages lib s.pages = some v.pages ∧
    resolveSectionPaths lib s.subsections = some v.subsections ∧
    resolveSectionPaths lib s.includers = some v.includers ∧
    resolveAncestors lib s.ancestors = some v.ancestors ∧
    TranslatedContent.find_all_sections s lib = some v.translations := by
  simp only [SerializingSection.from_section, Option.pure_def, Option.bind_eq_bind,
    Option.bind_eq_some, Option.some.injEq] at h
  obtain ⟨ps, hps, subs, hsubs, incl, hincl, an, han, tr, htr, hv⟩ := h
  subst hv
  exact ⟨hps, hsubs, hincl, han, htr⟩

/-- C5: from_section (a total function, terminating on every input including
cyclic includer graphs) represents subsections and includers only as the path
strings obtained via get_section_path_by_key, never as nested section views. -/
theorem C5_section_path_strings :
    ∀ (s : Section) (lib : Library) (v : SerializingSection),
      SerializingSection.from_section s lib = some v →
      resolveSectionPaths lib s.subsections = some v.subsections ∧
      resolveSectionPaths lib s.includers = some v.includers ∧
      List.Forall₂ (fun k r => lib.getSectionPathByKey k = some r) s.subsections v.subsections ∧
      List.Forall₂ (fun k r => lib.getSectionPathByKey k = some r) s.includers v.includers := by
  intro s lib v h
  obtain ⟨_, hsubs, hincl, _, _⟩ := from_section_fields h
  refine ⟨hsubs, hincl, ?_, ?_⟩
  · exact mapOption_forall2.mp
      ((resolveSectionPaths_eq_mapOption lib s.subsections).symm.trans hsubs)
  · exact mapOption_forall2.mp
      ((resolveSectionPaths_eq_mapOption lib s.includers).symm.trans hincl)

/-- C5 (witness): secA and secB include each other; projecting secA still
terminates with secB appearing only as its path string. -/
theorem C5_section_path_strings_witness :
    resolveSectionPaths libSec secA.subsections = some secViewA.subsections ∧
    resolveSectionPaths libSec secA.includers = some secViewA.includers ∧
    List.Forall₂ (fun k r => libSec.getSectionPathByKey k = some r)
      secA.subsections secViewA.subsections ∧
    List.Forall₂ (fun k r => libSec.getSectionPathByKey k = some r)
      secA.includers secViewA.includers :=
  C5_section_path_strings secA libSec secViewA rfl

/-- C10: every view produced by from_section_basic has an empty child-pages
list, with or without a library supplied. -/
theorem C10_section_basic_no_pages :
    ∀ (s : Section) (olib : Option Library) (v : SerializingSection),
      SerializingSection.from_section_basic s olib = some v → v.pages = [] := by
  intro s olib v h
  simp only [SerializingSection.from_section_basic, Option.pure_def, Option.bind_eq_bind,
    Option.bind_eq_some, Option.some.injEq] at h
  obtain ⟨an, han, tr, htr, subs, hsubs, incl, hincl, hv⟩ := h
  subst hv
  rfl

/-- C10 (witness): the basic view of secA in libSec has no child pages even
though a library was supplied. -/
theorem C10_section_basic_no_pages_witness : secViewA.pages = [] :=
  C10_section_basic_no_pages secA (some libSec) secViewA rfl

/- Success characterization of the projectors (broken-reference faults). -/


/-- The ancestors loop succeeds exactly when every ancestor key is a known
section. -/
theorem resolveAncestors_exists_iff {lib : Library} {ks : List Key} :
    (∃ rs, resolveAncestors lib ks = some rs) ↔
      ∀ k ∈ ks, ∃ s, lib.getSectionByKey k = some s := by
  rw [show (∃ rs, resolveAncestors lib ks = some rs) ↔
      (∃ rs, mapOption (fun k => (lib.getSectionByKey k).map (fun s => s.file.relative)) ks
        = some rs) from by rw [resolveAncestors_eq_mapOption]]
  rw [mapOption_exists_iff]
  constructor
  · intro h k hk
    obtain ⟨b, hb⟩ := h k hk
    obtain ⟨s, hs, _⟩ := Option.map_eq_some'.mp hb
    exact ⟨s, hs⟩
  · intro h k hk
    obtain ⟨s, hs⟩ := h k hk
    exact ⟨s.file.relative, by rw [hs]; rfl⟩

/-- The page-group loop succeeds exactly when every member key is a known
page. -/
theorem resolveGroupPages_exists_iff {lib : Library} {ks : List Key} :
    (∃ ts, resolveGroupPages lib ks = some ts) ↔
      ∀ k ∈ ks, ∃ q, lib.getPageByKey k = some q := by
  rw [show (∃ ts, resolveGroupPages lib ks = some ts) ↔
      (∃ ts, mapOption (fun k => (lib.getPageByKey k).map TranslatedContent.ofPage) ks
        = some ts) from by rw [resolveGroupPages_eq_mapOption]]
  rw [mapOption_exists_iff]
  constructor
  · intro h k hk
    obtain ⟨b, hb⟩ := h k hk
    obtain ⟨q, hq, _⟩ := Option.map_eq_some'.mp hb
    exact ⟨q, hq⟩
  · intro h k hk
    obtain ⟨q, hq⟩ := h k hk
    exact ⟨TranslatedContent.ofPage q, by rw [hq]; rfl⟩

/-- The section-group loop succeeds exactly when every member key is a known
section. -/
theorem resolveGroupSections_exists_iff {lib : Library} {ks : List Key} :
    (∃ ts, resolveGroupSections lib ks = some ts) ↔
      ∀ k ∈ ks, ∃ t, lib.getSectionByKey k = some t := by
  rw [show (∃ ts, resolveGroupSections lib ks = some ts) ↔
      (∃ ts, mapOption (fun k => (lib.getSectionByKey k).map TranslatedContent.ofSection) ks
        = some ts) from by rw [resolveGroupSections_eq_mapOption]]
  rw [mapOption_exists_iff]
  constructor
  · intro h k hk
    obtain ⟨b, hb⟩ := h k hk
    obtain ⟨t, ht, _⟩ := Option.map_eq_some'.mp hb
    exact ⟨t, ht⟩
  · intro h k hk
    obtain ⟨t, ht⟩ := h k hk
    exact ⟨TranslatedContent.ofSection t, by rw [ht]; rfl⟩

/-- The path loop succeeds exactly when every key has a section path. -/
theorem resolveSectionPaths_exists_iff {lib : Library} {ks : List Key} :
    (∃ rs, resolveSectionPaths lib ks = some rs) ↔
      ∀ k ∈ ks, ∃ r, lib.getSectionPathByKey k = some r := by
  rw [show (∃ rs, resolveSectionPaths lib ks = some rs) ↔
      (∃ rs, mapOption (fun k => lib.getSectionPathByKey k) ks = some rs) from by
    rw [resolveSectionPaths_eq_mapOption]]
  exact mapOption_exists_iff

/-- Basic projection with a library succeeds exactly when the page's own stored
keys (ancestors and translation-group members) all resolve. -/
theorem from_page_basic_some_iff {p : Page} {lib : Library} :
    (∃ v, SerializingPage.from_page_basic p (some lib) = some v) ↔ pageOwnKeysOk lib p := by
  constructor
  · rintro ⟨v, hv⟩
    obtain ⟨an, tr, han, htr, _⟩ := from_page_basic_eq_some_iff.mp hv
    exact ⟨resolveAncestors_exists_iff.mp ⟨an, han⟩,
      resolveGroupPages_exists_iff.mp ⟨tr, htr⟩⟩
  · rintro ⟨hanc, htra⟩
    obtain ⟨an, han⟩ := resolveAncestors_exists_iff.mpr hanc
    obtain ⟨tr, htr⟩ := resolveGroupPages_exists_iff.mpr htra
    exact ⟨SerializingPage.basicView p an tr,
      from_page_basic_eq_some_iff.mpr ⟨an, tr, han, htr, rfl⟩⟩

/-- Navigation-pointer resolution succeeds exactly when the pointer is absent or
its target is a known page whose own stored keys resolve. -/
theorem resolveNav_exists_iff {lib : Library} {o : Option Key} :
    (∃ r, resolveNav lib o = some r) ↔ navTargetOk lib o := by
  cases o with
  | none => simp [resolveNav, navTargetOk]
  | some k =>
    simp only [navTargetOk]
    constructor
    · rintro ⟨r, hr⟩
      obtain ⟨q, w, hq, hw, _⟩ := resolveNav_some_eq_some hr
      exact ⟨q, hq, from_page_basic_some_iff.mp ⟨w, hw⟩⟩
    · rintro ⟨q, hq, hok⟩
      obtain ⟨w, hw⟩ := from_page_basic_some_iff.mpr hok
      refine ⟨some w, ?_⟩
      simp only [resolveNav, Option.pure_def, Option.bind_eq_bind, Option.bind_eq_some]
      exact ⟨q, hq, w, hw, rfl⟩

/-- The child-pages loop succeeds exactly when every child key is a known page
whose own stored keys resolve. -/
theorem resolveChildPages_exists_iff {lib : Library} {ks : List Key} :
    (∃ vs, resolveChildPages lib ks = some vs) ↔
      ∀ k ∈ ks, ∃ q, lib.getPageByKey k = some q ∧ pageOwnKeysOk lib q := by
  rw [show (∃ vs, resolveChildPages lib ks = some vs) ↔
      (∃ vs, mapOption (fun k => do
          let p ← lib.getPageByKey k
          p.to_serialized_basic lib) ks = some vs) from by
    rw [resolveChildPages_eq_mapOption]]
  rw [mapOption_exists_iff]
  constructor
  · intro h k hk
    obtain ⟨b, hb⟩ := h k hk
    simp only [Option.pure_def, Option.bind_eq_bind, Option.bind_eq_some] at hb
    obtain ⟨q, hq, hqb⟩ := hb
    exact ⟨q, hq, from_page_basic_some_iff.mp ⟨b, hqb⟩⟩
  · intro h k hk
    obtain ⟨q, hq, hok⟩ := h k hk
    obtain ⟨w, hw⟩ := from_page_basic_some_iff.mpr hok
    refine ⟨w, ?_⟩
    simp only [Option.pure_def, Option.bind_eq_bind, Option.bind_eq_some]
    exact ⟨q, hq, hw⟩

/-- Full page projection succeeds exactly when the page's own stored keys and
all eight navigation targets (including the targets' own stored keys) resolve. -/
theorem from_page_some_iff {p : Page} {lib : Library} :
    (∃ v, SerializingPage.from_page p lib = some v) ↔
      pageOwnKeysOk lib p ∧ navTargetsOk lib p := by
  constructor
  · rintro ⟨v, hv⟩
    obtain ⟨l, hvy, eu, lu, er, lt, tp, tn, an, tr,
      h1, h2, h3, h4, h5, h6, h7, h8, h9, h10, _⟩ := from_page_eq_some_iff.mp hv
    refine ⟨⟨resolveAncestors_exists_iff.mp ⟨an, h9⟩,
      resolveGroupPages_exists_iff.mp ⟨tr, h10⟩⟩,
      resolveNav_exists_iff.mp ⟨l, h1⟩, resolveNav_exists_iff.mp ⟨hvy, h2⟩,
      resolveNav_exists_iff.mp ⟨eu, h3⟩, resolveNav_exists_iff.mp ⟨lu, h4⟩,
      resolveNav_exists_iff.mp ⟨er, h5⟩, resolveNav_exists_iff.mp ⟨lt, h6⟩,
      resolveNav_exists_iff.mp ⟨tp, h7⟩, resolveNav_exists_iff.mp ⟨tn, h8⟩⟩
  · rintro ⟨⟨hanc, htra⟩, hn1, hn2, hn3, hn4, hn5, hn6, hn7, hn8⟩
    obtain ⟨l, h1⟩ := resolveNav_exists_iff.mpr hn1
    obtain ⟨hvy, h2⟩ := resolveNav_exists_iff.mpr hn2
    obtain ⟨eu, h3⟩ := resolveNav_exists_iff.mpr hn3
    obtain ⟨lu, h4⟩ := resolveNav_exists_iff.mpr hn4
    obtain ⟨er, h5⟩ := resolveNav_exists_iff.mpr hn5
    obtain ⟨lt, h6⟩ := resolveNav_exists_iff.mpr hn6
    obtain ⟨tp, h7⟩ := resolveNav_exists_iff.mpr hn7
    obtain ⟨tn, h8⟩ := resolveNav_exists_iff.mpr hn8
    obtain ⟨an, h9⟩ := resolveAncestors_exists_iff.mpr hanc
    obtain ⟨tr, h10⟩ := resolveGroupPages_exists_iff.mpr htra
    exact ⟨SerializingPage.fullView p an tr l hvy eu lu er lt tp tn,
      from_page_eq_some_iff.mpr ⟨l, hvy, eu, lu, er, lt, tp, tn, an, tr,
        h1, h2, h3, h4, h5, h6, h7, h8, h9, h10, rfl⟩⟩

/-- Section projection succeeds exactly when every key it dereferences
resolves. -/
theorem from_section_some_iff {s : Section} {lib : Library} :
    (∃ v, SerializingSection.from_section s lib = some v) ↔ sectionOwnKeysOk lib s := by
  constructor
  · rintro ⟨v, hv⟩
    obtain ⟨hps, hsubs, hincl, han, htr⟩ := from_section_fields hv
    exact ⟨resolveChildPages_exists_iff.mp ⟨v.pages, hps⟩,
      resolveSectionPaths_exists_iff.mp ⟨v.subsections, hsubs⟩,
      resolveSectionPaths_exists_iff.mp ⟨v.includers, hincl⟩,
      resolveAncestors_exists_iff.mp ⟨v.ancestors, han⟩,
      resolveGroupSections_exists_iff.mp ⟨v.translations, htr⟩⟩
  · rintro ⟨hp, hsub, hinc, hanc, htra⟩
    obtain ⟨ps, hps⟩ := resolveChildPages_exists_iff.mpr hp
    obtain ⟨subs, hsubs⟩ := resolveSectionPaths_exists_iff.mpr hsub
    obtain ⟨incl, hincl⟩ := resolveSectionPaths_exists_iff.mpr hinc
    obtain ⟨an, han⟩ := resolveAncestors_exists_iff.mpr hanc
    obtain ⟨tr, htr⟩ := resolveGroupSections_exists_iff.mpr htra
    refine ⟨SerializingSection.sectionView s an tr ps subs incl, ?_⟩
    simp only [SerializingSection.from_section, Option.pure_def, Option.bind_eq_bind,
      Option.bind_eq_some, Option.some.injEq]
    exact ⟨ps, hps, subs, hsubs, incl, hincl, an, han, tr, htr, rfl⟩

/-- C7 (amended): projection of one entity is atomic, either a full view or a
single fatal fault with no partial view; it succeeds exactly when every key it
dereferences resolves, namely the keys stored in the entity (navigation
pointers, ancestors, children, translation-group members) and additionally the
keys stored in the pages fetched one level deep (a navigation target's or child
page's own ancestors and translation-group members). -/
theorem C7_projection_success_amended :
    (∀ (p : Page) (lib : Library),
      (∃ v, SerializingPage.from_page p lib = some v) ↔
        pageOwnKeysOk lib p ∧ navTargetsOk lib p) ∧
    (∀ (s : Section) (lib : Library),
      (∃ v, SerializingSection.from_section s lib = some v) ↔ sectionOwnKeysOk lib s) :=
  ⟨fun _ _ => from_page_some_iff, fun _ _ => from_section_some_iff⟩

/-- C7 (counterexample): in libBroken every key stored in pageNavBroken itself
resolves (its lighter target key 2 is a known page, it has no ancestors and no
translation group), yet from_page aborts with a fault, because the fetched
target pageTargetBroken has a dangling ancestor key: presence of the keys
stored in the entity alone does not make projection succeed. -/
theorem C7_counterexample :
    pageOwnKeysOk libBroken pageNavBroken ∧
    pageNavBroken.lighter = some 2 ∧
    libBroken.getPageByKey 2 = some pageTargetBroken ∧
    SerializingPage.from_page pageNavBroken libBroken = none := by
  refine ⟨⟨?_, ?_⟩, rfl, rfl, rfl⟩
  · intro k hk
    have h : pageNavBroken.ancestors = ([] : List Key) := rfl
    rw [h] at hk
    cases hk
  · intro k hk
    have h : libBroken.translationGroup pageNavBroken.file.canonical = ([] : List Key) := rfl
    rw [h] at hk
    cases hk

/-- C7 (witness for the amended theorem): pageNav projects fully in lib2, so
every key it dereferences resolves. -/
theorem C7_projection_success_amended_witness :
    pageOwnKeysOk lib2 pageNav ∧ navTargetsOk lib2 pageNav :=
  (C7_projection_success_amended.1 pageNav lib2).mp ⟨navViewEx, rfl⟩

end Zola
